import Mathlib

/-!
# Verification of the resume-worker core pipeline

Shallow embedding of the resume-generation worker's core modules:
the retry executor (`withRetry`), the RabbitMQ message consumer's
delivery handling, the content validator (`AIValidator.validate`),
the content enricher (`enhanceItem` / `enhanceItems`), the payload
assembler (`selectOptimalContent` / `assemblePayload`) and the job
orchestrator (`processJob`).

Conventions of the embedding:
* JavaScript strings are Lean `String`s (lengths count characters);
  `undefined`/`null` become `Option`; thrown errors are `Except.error`
  carrying the error message (all thrown values of interest in the
  source are `Error` instances, identified by their `message`).
* Asynchronous collaborator calls are passed in as explicit outcome
  oracles (`Except String _`), so a promise rejection is an `error`
  value and a resolution is an `ok` value.
* Wall-clock timestamps (`new Date()`) are outside the model; status
  records keep only the data fields the code computes.
-/

namespace ResumeWorker

/-- `startsWithList needle hay`: `needle` is a leading segment of `hay`
(character-list version of JavaScript's `String.prototype.startsWith`). -/
def startsWithList : List Char → List Char → Bool
  | [], _ => true
  | _ :: _, [] => false
  | a :: as, b :: bs => a = b && startsWithList as bs

/-- `containsList hay needle`: `needle` occurs as a contiguous run in `hay`. -/
def containsList : List Char → List Char → Bool
  | [], needle => startsWithList needle []
  | h :: t, needle => startsWithList needle (h :: t) || containsList t needle

/-- Model of JavaScript `String.prototype.includes`: substring containment. -/
def strIncludes (s sub : String) : Bool :=
  containsList s.data sub.data

/-! ## Retry executor (`withRetry`, src retry module)

`withRetry` wraps the `async-retry` npm package: the configured
`maxAttempts` value is passed as `async-retry`'s `retries` option, the
operation is attempted up to `retries + 1` times in total, `onRetry`
(which emits one retry-warning log event) fires once per failure that
will be retried, a non-retryable error is `bail`ed (immediate rejection
with that error), and on exhaustion the promise rejects with
`node-retry`'s `mainError()`: the collected error whose message occurred
most frequently, later occurrences winning ties. -/

/-- The non-retryable classification of `withRetry`: the error message
contains `404`, `401`, `403` or `Invalid`. -/
def nonRetryable (msg : String) : Bool :=
  strIncludes msg "404" || strIncludes msg "401" ||
    strIncludes msg "403" || strIncludes msg "Invalid"

/-- Occurrence count of a message in a list of collected error messages. -/
def countOcc (l : List String) (m : String) : Nat :=
  (l.filter (fun x => x = m)).length

/-- Fold of `node-retry`'s `mainError()` scan: walks the collected errors,
keeping the error whose message count so far is largest (`>=`, so later
occurrences win ties). -/
def mainErrorGo : List String → List String → Option String → Nat → Option String
  | [], _, best, _ => best
  | e :: rest, seen, best, bestCount =>
    let seen' := seen ++ [e]
    let c := countOcc seen' e
    if bestCount ≤ c then mainErrorGo rest seen' (some e) c
    else mainErrorGo rest seen' best bestCount

/-- `node-retry`'s `mainError()` over the list of collected error messages. -/
def mainError (l : List String) : Option String :=
  mainErrorGo l [] none 0

/-- Observable outcome of one `withRetry` call: the settled result, how many
times the operation was invoked, how many retry-warning log events were
emitted (`onRetry` calls), and the collected retryable error messages. -/
structure RetryTrace (α : Type) where
  result : Except String α
  invocations : Nat
  warnings : Nat
  collected : List String
deriving Repr

/-- The attempt loop of `withRetry`: `f i` is the outcome of the `i`-th
invocation of the operation (0-indexed); `retriesLeft` counts the retries
still allowed. On success the value is returned; a non-retryable failure is
bailed immediately with that error; a retryable failure is collected and,
when retries remain, triggers one retry-warning and another attempt,
otherwise the call rejects with `mainError` over the collected failures. -/
def runRetryAux (f : Nat → Except String α) :
    Nat → Nat → List String → Nat → RetryTrace α
  | i, retriesLeft, errs, warns =>
    match f i with
    | .ok a => ⟨.ok a, i + 1, warns, errs⟩
    | .error m =>
      if nonRetryable m then ⟨.error m, i + 1, warns, errs⟩
      else
        let errs' := errs ++ [m]
        match retriesLeft with
        | 0 => ⟨.error ((mainError errs').getD m), i + 1, warns, errs'⟩
        | r + 1 => runRetryAux f (i + 1) r errs' (warns + 1)

/-- `withRetry fn operation options`: the operation-outcome oracle `f` is run
under the retry policy whose `maxAttempts` (the source's
`options?.retries ?? config.retry.maxAttempts`) is handed to `async-retry`
as its `retries` option. Backoff delays are timing-only and not modelled. -/
def withRetry (f : Nat → Except String α) (maxAttempts : Nat) : RetryTrace α :=
  runRetryAux f 0 maxAttempts [] 0

/-! ## Message consumer (`RabbitMQConsumer.start`, src rabbitmq module)

The consume callback decodes the message body as JSON into a
`ResumeGenerationJob`, runs the registered handler, and on success
acknowledges; on any failure (JSON parse or handler rejection) it reads
the `x-retry-count` header, defaulting to `0` when absent, nack-requeues
when the value is below 3 and nacks to the dead-letter route otherwise.
`channel.ack`/`channel.nack` are handed the delivery object as received:
the consumer performs no mutation of the message or its headers. -/

/-- A decoded queue job (`ResumeGenerationJob`). -/
structure ResumeGenerationJob where
  jobId : String
  userId : String
  jobDescription : String
  userEmail : Option String := none
  userName : Option String := none
deriving Repr, DecidableEq

/-- One broker delivery: the raw body and the AMQP headers
(`msg.properties.headers`), modelled as an association list of numeric
headers. -/
structure Delivery where
  headers : List (String × Nat)
  body : String
deriving Repr, DecidableEq

/-- `(msg.properties.headers?.['x-retry-count'] as number) || 0`:
the retry counter read from the delivery's headers, defaulting to 0. -/
def retryCountOf (msg : Delivery) : Nat :=
  match msg.headers.lookup "x-retry-count" with
  | some n => n
  | none => 0

/-- What the consume callback does with the delivery. -/
inductive ConsumerAction where
  | ack
  | nackRequeue
  | nackDeadLetter
deriving Repr, DecidableEq

/-- Result of one run of the consume callback: the channel operation
performed, applied to the delivery object it received (the code passes
`msg` to `ack`/`nack` unchanged — it never rewrites headers). -/
structure ConsumeStep where
  action : ConsumerAction
  message : Delivery
deriving Repr, DecidableEq

/-- The body of `RabbitMQConsumer.start`'s consume callback.
`parseJob` models `JSON.parse` on the body (throwing on malformed JSON),
`handler` models the registered job handler's settled outcome. -/
def consumeDelivery (parseJob : String → Except String ResumeGenerationJob)
    (handler : ResumeGenerationJob → Except String Unit)
    (msg : Delivery) : ConsumeStep :=
  match (parseJob msg.body).bind handler with
  | .ok _ => ⟨.ack, msg⟩
  | .error _ =>
    if retryCountOf msg < 3 then ⟨.nackRequeue, msg⟩
    else ⟨.nackDeadLetter, msg⟩

/-- Redelivery loop: a nack-with-requeue puts the message the consumer
nacked back on the queue, so the `n+1`-st delivery is the message object
of the `n`-th consume step. `redeliver n` is the consume step of the
`n`-th delivery of `msg`. -/
def redeliver (parseJob : String → Except String ResumeGenerationJob)
    (handler : ResumeGenerationJob → Except String Unit)
    (msg : Delivery) : Nat → ConsumeStep
  | 0 => consumeDelivery parseJob handler msg
  | n + 1 => consumeDelivery parseJob handler (redeliver parseJob handler msg n).message

/-! ## Content validator (`AIValidator`, src ai-validator module) -/

/-- Supported language codes (`'en' | 'pt-BR' | 'es' | 'fr'`). -/
inductive Language where
  | en
  | ptBR
  | es
  | fr
deriving Repr, DecidableEq

/-- Content format as detected (`'bullet' | 'prose' | 'mixed'`). The
`requiredFormat` rule is declared `'bullet' | 'prose'` but the enricher
casts its section format (which may be `'mixed'`) into it, so the rule
field reuses this type. -/
inductive DetectedFormat where
  | bullet
  | prose
  | mixed
deriving Repr, DecidableEq

/-- Validation error codes of `ValidationError.code`. -/
inductive ValidationCode where
  | TOO_SHORT
  | TOO_LONG
  | WRONG_FORMAT
  | FORBIDDEN_PHRASE
  | MISSING_BULLETS
  | QUALITY_ISSUE
deriving Repr, DecidableEq

/-- `ValidationError.severity`. -/
inductive Severity where
  | error
  | warning
deriving Repr, DecidableEq

/-- One entry produced by the validator (the unused optional `field` is
omitted). -/
structure ValidationError where
  code : ValidationCode
  message : String
  severity : Severity
  suggestion : Option String := none
deriving Repr, DecidableEq

/-- The rule set driving one `validate` call. A `minLength`/`maxLength`
of `some 0` is falsy in the source (`rules.minLength && ...`), which the
embedding reproduces explicitly. -/
structure ValidationRules where
  minLength : Option Nat := none
  maxLength : Option Nat := none
  requiredFormat : Option DetectedFormat := none
  bulletPointCount : Option (Nat × Nat) := none
  forbiddenPhrases : Option (List String) := none
  requiredKeywords : Option (List String) := none
  language : Option Language := none
deriving Repr, DecidableEq

/-- `ValidationResult.metadata`. -/
structure ValidationMetadata where
  length : Nat
  bulletPoints : Nat
  format : DetectedFormat
  estimatedReadingTime : Nat
deriving Repr, DecidableEq

/-- Result of one `validate` call. -/
structure ValidationResult where
  isValid : Bool
  errors : List ValidationError
  warnings : List String
  metadata : ValidationMetadata
deriving Repr, DecidableEq

/-- `DEFAULT_FORBIDDEN_PHRASES`, per language. -/
def defaultForbiddenPhrases : Language → List String
  | .en => ["i don't know", "error", "unable to", "[placeholder]", "todo", "wip", "tbd"]
  | .ptBR => ["não sei", "erro", "incapaz de", "[placeholder]", "todo", "wip", "tbd"]
  | .es => ["no sé", "error", "incapaz", "[placeholder]", "todo", "wip", "tbd"]
  | .fr => ["ne sais pas", "erreur", "incapable", "[placeholder]", "todo", "wip", "tbd"]

/-- A line matching `/^[\s]*[•\-\*]/`: optional leading whitespace then a
bullet marker. -/
def isBulletLine (l : String) : Bool :=
  match l.data.dropWhile (fun c => c.isWhitespace) with
  | c :: _ => c = '•' || c = '-' || c = '*'
  | [] => false

/-- `_countBullets`: the multiline-anchored bullet regex matches once per
line whose first non-whitespace character is a bullet marker. -/
def countBullets (content : String) : Nat :=
  ((content.splitOn "\n").filter isBulletLine).length

/-- The non-blank lines used by `_detectFormat`. -/
def nonBlankLines (content : String) : List String :=
  (content.splitOn "\n").filter (fun l => l.trim.length > 0)

/-- `_detectFormat`: bullet ratio over non-blank lines; `> 0.7` is bullet,
`> 0.3` is mixed, otherwise prose (comparisons cleared of the division). -/
def detectFormat (content : String) : DetectedFormat :=
  let lines := nonBlankLines content
  let bulletLines := lines.filter isBulletLine
  let total := max lines.length 1
  if 10 * bulletLines.length > 7 * total then .bullet
  else if 10 * bulletLines.length > 3 * total then .mixed
  else .prose

/-- `_getMetadata`: content statistics; reading time is
`Math.ceil(length / 200)`. -/
def getMetadata (content : String) : ValidationMetadata :=
  { length := content.trim.length
    bulletPoints := countBullets content
    format := detectFormat content
    estimatedReadingTime := (content.trim.length + 199) / 200 }

/-- The `TOO_SHORT` check: applies when `rules.minLength` is truthy
(present, nonzero) and the trimmed length is below it. -/
def tooShortErrs (len : Nat) (minLength : Option Nat) : List ValidationError :=
  match minLength with
  | some n =>
    if n ≠ 0 ∧ len < n then
      [⟨.TOO_SHORT, s!"Content too short: {len} chars (min: {n})", .error,
        some s!"Expand the response to at least {n} characters"⟩]
    else []
  | none => []

/-- The `TOO_LONG` check: applies when `rules.maxLength` is truthy and
the trimmed length exceeds it. -/
def tooLongErrs (len : Nat) (maxLength : Option Nat) : List ValidationError :=
  match maxLength with
  | some n =>
    if n ≠ 0 ∧ len > n then
      [⟨.TOO_LONG, s!"Content too long: {len} chars (max: {n})", .error,
        some s!"Reduce the response to {n} characters or less"⟩]
    else []
  | none => []

/-- One `FORBIDDEN_PHRASE` error per case-insensitive hit. -/
def forbiddenErrs (trimmed : String) (forbiddenList : List String) :
    List ValidationError :=
  (forbiddenList.filter (fun p => strIncludes trimmed.toLower p.toLower)).map
    (fun p => ⟨.FORBIDDEN_PHRASE, s!"Contains forbidden phrase: \"{p}\"", .error, none⟩)

/-- The `WRONG_FORMAT` *error*: only a required `bullet` format with a
non-bullet detected format and zero bullets produces it. -/
def formatErrs (trimmed : String) (requiredFormat : Option DetectedFormat) :
    List ValidationError :=
  match requiredFormat with
  | some .bullet =>
    if detectFormat trimmed ≠ .bullet ∧ countBullets trimmed = 0 then
      [⟨.WRONG_FORMAT, "Expected bullet-point format but received prose", .error,
        some "Format response as bullet points starting with • or -"⟩]
    else []
  | _ => []

/-- The `WRONG_FORMAT` *warning*: a required `prose` format with
detected bullets warns without blocking. -/
def formatWarns (trimmed : String) (requiredFormat : Option DetectedFormat) :
    List ValidationError :=
  match requiredFormat with
  | some .prose =>
    if detectFormat trimmed = .bullet then
      [⟨.WRONG_FORMAT, "Expected prose format but received bullet points", .warning,
        some "Format response as continuous prose without bullet points"⟩]
    else []
  | _ => []

/-- The `MISSING_BULLETS` check against a configured `{min, max}` range. -/
def bulletErrs (bulletCount : Nat) (range : Option (Nat × Nat)) :
    List ValidationError :=
  match range with
  | some (mn, mx) =>
    if bulletCount < mn ∨ bulletCount > mx then
      [⟨.MISSING_BULLETS, s!"Expected {mn}-{mx} bullet points but got {bulletCount}",
        .error, some "Add or remove bullet points to meet the requirement"⟩]
    else []
  | none => []

/-- The required-keyword check: missing keywords produce one warning. -/
def keywordWarns (trimmed : String) (requiredKeywords : Option (List String)) :
    List ValidationError :=
  match requiredKeywords with
  | some kws =>
    if kws.length > 0 then
      let missing := kws.filter (fun k => !strIncludes trimmed.toLower k.toLower)
      if missing.length > 0 then
        let joined := String.intercalate ", " missing
        [⟨.QUALITY_ISSUE, s!"Missing keywords: {joined}", .warning, none⟩]
      else []
    else []
  | none => []

/-- The error list `validate` accumulates for non-empty content. -/
def validateErrors (content : String) (rules : ValidationRules) :
    List ValidationError :=
  let trimmed := content.trim
  let len := trimmed.length
  let language := rules.language.getD .en
  tooShortErrs len rules.minLength ++ tooLongErrs len rules.maxLength ++
    forbiddenErrs trimmed (rules.forbiddenPhrases.getD (defaultForbiddenPhrases language)) ++
    formatErrs trimmed rules.requiredFormat ++
    bulletErrs (countBullets trimmed) rules.bulletPointCount

/-- `AIValidator.validate(content, rules)`. Empty content is rejected
outright; then the length, forbidden-phrase, format, bullet-count and
required-keyword checks run in source order, errors and warnings are
collected separately, and `isValid` is `errors.length === 0`. -/
def validate (content : String) (rules : ValidationRules) : ValidationResult :=
  if content = "" then
    { isValid := false
      errors := [⟨.QUALITY_ISSUE, "Response is empty or not a string", .error, none⟩]
      warnings := []
      metadata := getMetadata content }
  else
    let trimmed := content.trim
    let errors := validateErrors content rules
    let warnings :=
      formatWarns trimmed rules.requiredFormat ++
        keywordWarns trimmed rules.requiredKeywords
    { isValid := errors.length == 0
      errors := errors
      warnings := warnings.map (fun w => w.message)
      metadata := getMetadata trimmed }

/-- `AIValidator.getRulesForSection(section, language)`: the static
per-section rule table; unknown sections yield the empty rule set. -/
def getRulesForSection (sectionName : String) (language : Language) : ValidationRules :=
  if sectionName = "experience" then
    { minLength := some 100, maxLength := some 300, requiredFormat := some .bullet
      bulletPointCount := some (2, 4)
      forbiddenPhrases := some (defaultForbiddenPhrases language) }
  else if sectionName = "project" then
    { minLength := some 80, maxLength := some 250, requiredFormat := some .bullet
      bulletPointCount := some (1, 3)
      forbiddenPhrases := some (defaultForbiddenPhrases language) }
  else if sectionName = "post" then
    { minLength := some 40, maxLength := some 150, requiredFormat := some .prose
      forbiddenPhrases := some (defaultForbiddenPhrases language) }
  else if sectionName = "profile" then
    { minLength := some 80, maxLength := some 350, requiredFormat := some .prose
      forbiddenPhrases := some (defaultForbiddenPhrases language ++ ["i am", "i have", "i think"]) }
  else if sectionName = "publication" then
    { minLength := some 50, maxLength := some 200, requiredFormat := some .prose
      forbiddenPhrases := some (defaultForbiddenPhrases language) }
  else {}

/-! ## Enrichment metadata and dynamic items

Enriched entities are dynamic records: string-valued content fields plus
the injected `_ai` enhancement metadata. The embedding models the string
fields as an association list and `_ai` as an optional record
(`undefined` is `none`). -/

/-- `EnhancementMetadata` attached per enriched item. The wall-clock
`timestamp` field is not modelled. -/
structure EnhancementMetadata where
  status : String
  validated : Bool
  length_original : Nat
  length_optimized : Nat
  format : DetectedFormat
  focusOn : String
  tokensUsed : Nat
  model : String
  language : Language
  error : Option String := none
deriving Repr, DecidableEq

/-- A dynamic item flowing through enrichment and assembly: its
string-valued fields and the optional `_ai` metadata. -/
structure Item where
  fields : List (String × String)
  _ai : Option EnhancementMetadata := none
deriving Repr, DecidableEq

/-- `item[name]` for string fields: `none` is `undefined`. -/
def getField (item : Item) (name : String) : Option String :=
  item.fields.lookup name

/-- Assoc-list update modelling `{...obj, key: val}` (spread then
override): an existing binding is replaced, a fresh key is appended. -/
def setField (fs : List (String × String)) (key val : String) :
    List (String × String) :=
  if (fs.lookup key).isSome then
    fs.map (fun kv => if kv.1 = key then (key, val) else kv)
  else fs ++ [(key, val)]

/-- JavaScript truthiness of an optional string (`undefined` and `''`
are falsy). -/
def jsTruthy : Option String → Bool
  | some s => s ≠ ""
  | none => false

/-! ## Payload assembler (src payload-assembler module) -/

/-- `truncate(str, max)`: `null`/`undefined` become `''`; longer strings
are cut to a left-anchored prefix of `max` characters. -/
def truncate (str : Option String) (max : Nat) : String :=
  match str with
  | none => ""
  | some s => if s.length ≤ max then s else ⟨s.data.take max⟩

/-- `item._ai?.validated && item._ai?.status === 'success'`. -/
def aiValidatedSuccess (item : Item) : Bool :=
  match item._ai with
  | some m => m.validated && m.status == "success"
  | none => false

/-- `selectOptimalContent(item, fieldName)`: prefer the `_optimized`
variant when the metadata marks a validated success *and* the optimized
field is truthy; otherwise fall back to the raw field (or `''`). Either
way the result is truncated to the per-field cap (800 for `description`,
500 otherwise). -/
def selectOptimalContent (item : Item) (fieldName : String) : String :=
  let optimizedField := fieldName ++ "_optimized"
  let maxLen := if fieldName = "description" then 800 else 500
  if aiValidatedSuccess item && jsTruthy (getField item optimizedField) then
    truncate (getField item optimizedField) maxLen
  else
    truncate (some ((getField item fieldName).getD "")) maxLen

/-- One item as emitted in the outbound payload: the spread of the
source item with its content field replaced, the derived `_aiEnhanced`
flag, and `_ai` set to `undefined`. -/
structure PayloadItem where
  fields : List (String × String)
  _aiEnhanced : Bool
  _ai : Option EnhancementMetadata
deriving Repr, DecidableEq

/-- The per-item mapping of `assemblePayload` over a section whose
content field is `contentField` (`description` or `excerpt`). -/
def toPayloadItem (contentField : String) (e : Item) : PayloadItem :=
  { fields := setField e.fields contentField (selectOptimalContent e contentField)
    _aiEnhanced := aiValidatedSuccess e
    _ai := none }

/-- A metadata value of the job's free-form `metadata` record. -/
inductive MetaValue where
  | str (s : String)
  | num (n : Nat)
  | strList (l : List String)
deriving Repr, DecidableEq

/-- String metadata values are truncated to 1000 characters; other
values pass through. -/
def truncMetaValue : MetaValue → MetaValue
  | .str s => .str (truncate (some s) 1000)
  | v => v

/-- The optional identity profile resolved by the orchestrator. -/
structure UserProfile where
  name : Option String := none
  email : Option String := none
  phone : Option String := none
  location : Option String := none
deriving Repr, DecidableEq

/-- The enrichment-stage output consumed by `assemblePayload`. -/
structure EnrichedStats where
  aiSectionsEnabled : List String
  totalTokensUsed : Nat
  enhancementDuration : Nat
deriving Repr, DecidableEq

/-- `enrichedData`: the five enriched sections plus optional stats. -/
structure EnrichedData where
  experiences : List Item := []
  projects : List Item := []
  posts : List Item := []
  technicalWritings : List Item := []
  systemDesigns : List Item := []
  enhancementStats : Option EnrichedStats := none
deriving Repr, DecidableEq

/-- The job's free-form metadata record (added to the queue-job model
here, where the assembler consumes it). -/
structure JobInput where
  job : ResumeGenerationJob
  metadata : List (String × MetaValue) := []
deriving Repr, DecidableEq

/-- JavaScript `a || b || ... || ''` over optional strings. -/
def firstTruthy : List (Option String) → String
  | [] => ""
  | some s :: rest => if s = "" then firstTruthy rest else s
  | none :: rest => firstTruthy rest

/-- The email regex `/^[^\s@]+@[^\s@]+\.[^\s@]+$/`: exactly one `@`,
a non-empty whitespace-free local part, and a domain with an interior
dot (at least one character on each side). -/
def validEmail (s : String) : Bool :=
  match s.splitOn "@" with
  | [lpart, domain] =>
    lpart ≠ "" && lpart.data.all (fun c => !c.isWhitespace) &&
      domain.data.all (fun c => !c.isWhitespace) &&
      ((domain.data.drop 1).dropLast.contains '.')
  | _ => false

/-- The assembled outbound payload. -/
structure ResumePayload where
  profileName : String
  profileEmail : String
  profilePhone : String
  profileLocation : String
  jobDescription : String
  experiences : List PayloadItem
  projects : List PayloadItem
  posts : List PayloadItem
  technicalWritings : List PayloadItem
  systemDesigns : List PayloadItem
  metadata : List (String × MetaValue)
deriving Repr, DecidableEq

/-- `assemblePayload(job, enrichedData, userProfile?)`: profile fields
with per-field caps and email sanitization, job description capped at
2000, the five sections mapped through `selectOptimalContent` with
`_ai` stripped to `undefined` and `_aiEnhanced` derived, and free-form
metadata (strings capped at 1000) plus the AI enrichment stats. -/
def assemblePayload (input : JobInput) (enrichedData : EnrichedData)
    (userProfile : Option UserProfile) : ResumePayload :=
  let job := input.job
  let email0 :=
    truncate (some (firstTruthy [userProfile.bind UserProfile.email, job.userEmail])) 200
  let meta0 := input.metadata.map (fun kv => (kv.1, truncMetaValue kv.2))
  { profileName :=
      truncate (some (firstTruthy [userProfile.bind UserProfile.name, job.userName])) 200
    profileEmail :=
      if email0 = "" || !validEmail email0 then "no-reply@example.com" else email0
    profilePhone := truncate (some (firstTruthy [userProfile.bind UserProfile.phone])) 50
    profileLocation :=
      truncate (some (firstTruthy [userProfile.bind UserProfile.location])) 100
    jobDescription := truncate (some job.jobDescription) 2000
    experiences := enrichedData.experiences.map (toPayloadItem "description")
    projects := enrichedData.projects.map (toPayloadItem "description")
    posts := enrichedData.posts.map (toPayloadItem "excerpt")
    technicalWritings := enrichedData.technicalWritings.map (toPayloadItem "description")
    systemDesigns := enrichedData.systemDesigns.map (toPayloadItem "description")
    metadata :=
      match enrichedData.enhancementStats with
      | some st =>
        meta0 ++
          [("ai_enriched_sections", MetaValue.strList st.aiSectionsEnabled),
           ("ai_tokens_used", MetaValue.num st.totalTokensUsed),
           ("ai_enhancement_duration_ms", MetaValue.num st.enhancementDuration)]
      | none => meta0 }

/-! ## Content enricher (`AIEnricher`, src ai-enricher module)

The AI collaborator call (`withRetry(() => aiService.generateContent(...))`)
is passed in as an outcome oracle: `Except.ok` is a resolved response,
`Except.error` a rejection (network failure, non-retryable classification,
exhausted retries). Prompt construction (`buildInstruction`) only shapes
the request text and does not influence any claim, so it is not modelled. -/

/-- The AI collaborator's response (`content`, `tokens_used`, `model`). -/
structure AIResponse where
  content : String
  tokens_used : Nat
  model : String
deriving Repr, DecidableEq

/-- `SectionEnhancerConfig`. -/
structure SectionEnhancerConfig where
  enable : Bool
  format : DetectedFormat
  minLength : Nat
  maxLength : Nat
  focusOn : List String
  bulletPoints : Option Nat := none
  includeMetrics : Bool := false
deriving Repr, DecidableEq

/-- `AIEnhancerConfig` (fallback policies are the strings
`'raw' | 'truncate' | 'skip'`). -/
structure AIEnhancerConfig where
  jobDescription : String
  targetRole : Option String := none
  skillKeywords : List String
  language : Language
  fallbackOnAIFailure : String
  fallbackOnValidationFailure : String
deriving Repr, DecidableEq

/-- The validation rules `enhanceItem` derives: the static section rules
overridden by the section config's min/max length and format; a truthy
`bulletPoints` (nonzero) relaxes the bullet range to `{min: 1, max: 50}`. -/
def rulesForEnhance (sectionName : String) (config : SectionEnhancerConfig)
    (language : Language) : ValidationRules :=
  let base := getRulesForSection sectionName language
  { base with
    minLength := some config.minLength
    maxLength := some config.maxLength
    requiredFormat := some config.format
    bulletPointCount :=
      match config.bulletPoints with
      | some n => if n ≠ 0 then some (1, 50) else base.bulletPointCount
      | none => base.bulletPointCount }

/-- The key the enricher writes the AI text under:
`excerpt_optimized` for the `post` section, `description_optimized`
otherwise. -/
def optimizedKey (sectionName : String) : String :=
  (if sectionName = "post" then "excerpt" else "description") ++ "_optimized"

/-- The `EnhancementMetadata` attached when the AI call (or anything else
inside `enhanceItem`'s try block) throws with message `err`. -/
def failedAIMeta (content : String) (config : SectionEnhancerConfig)
    (enhancerConfig : AIEnhancerConfig) (err : String) : EnhancementMetadata :=
  { status := "failed", validated := false
    length_original := content.length, length_optimized := 0
    format := config.format, focusOn := String.intercalate "," config.focusOn
    tokensUsed := 0, model := ""
    language := enhancerConfig.language, error := some err }

/-- The body of `enhanceItem`'s try block: AI call, validation, and the
success / validation-fallback outcomes. An AI-call rejection propagates
out of the block. -/
def enhanceItemTry (item : Item) (content : String) (sectionName : String)
    (config : SectionEnhancerConfig) (enhancerConfig : AIEnhancerConfig)
    (aiCall : Except String AIResponse) : Except String Item :=
  match aiCall with
  | .error err => .error err
  | .ok response =>
    let validationRules := rulesForEnhance sectionName config enhancerConfig.language
    let validation := validate response.content validationRules
    if validation.isValid then
      .ok
        { fields := setField item.fields (optimizedKey sectionName) response.content
          _ai := some
            { status := "success", validated := true
              length_original := content.length
              length_optimized := response.content.length
              format := config.format
              focusOn := String.intercalate "," config.focusOn
              tokensUsed := response.tokens_used, model := response.model
              language := enhancerConfig.language, error := none } }
    else if enhancerConfig.fallbackOnValidationFailure = "skip" then .ok item
    else
      let fallbackContent :=
        if enhancerConfig.fallbackOnValidationFailure = "truncate" then
          (⟨response.content.data.take config.maxLength⟩ : String)
        else content
      let errMsg :=
        match validation.errors.head? with
        | some e => if e.message = "" then "Validation failed" else e.message
        | none => "Validation failed"
      .ok
        { fields := setField item.fields (optimizedKey sectionName) fallbackContent
          _ai := some
            { status := "failed", validated := false
              length_original := content.length
              length_optimized := fallbackContent.length
              format := config.format
              focusOn := String.intercalate "," config.focusOn
              tokensUsed := response.tokens_used, model := response.model
              language := enhancerConfig.language, error := some errMsg } }

/-- `AIEnricher.enhanceItem`: a disabled section returns the item
unchanged; otherwise the try block runs and its catch converts any
thrown error into the item with a `failed` metadata record attached —
the promise always resolves. -/
def enhanceItem (item : Item) (content : String) (sectionName : String)
    (config : SectionEnhancerConfig) (enhancerConfig : AIEnhancerConfig)
    (aiCall : Except String AIResponse) : Item :=
  if !config.enable then item
  else
    match enhanceItemTry item content sectionName config enhancerConfig aiCall with
    | .ok enhanced => enhanced
    | .error err => { item with _ai := some (failedAIMeta content config enhancerConfig err) }

/-- `AIEnricher.enhanceItems`: disabled sections and empty batches pass
through; otherwise every item is enhanced (concurrently in the source;
order-preserving fan-out is a pointwise map). `aiCalls` gives each
item's AI-call outcome. -/
def enhanceItems (items : List Item) (contentExtractor : Item → String)
    (sectionName : String) (config : SectionEnhancerConfig)
    (enhancerConfig : AIEnhancerConfig)
    (aiCalls : Item → Except String AIResponse) : List Item :=
  if !config.enable || items.length == 0 then items
  else
    items.map (fun item =>
      enhanceItem item (contentExtractor item) sectionName config enhancerConfig
        (aiCalls item))

/-! ## Job orchestrator (`ResumeJobProcessor.processJob`, src job-processor)

Collaborator outcomes are an explicit environment. AI enhancement and
the auth lookup are wrapped in their own try/catch in the source and can
never fail the job, so their outcomes do not appear among the failure
sources. Status persistence is modelled as the ordered list of
`updateResumeJobStatus` calls the run performs (the `failed` update also
carries a `failedAt` timestamp and the `completed` update a duration,
which are wall-clock values outside the model). -/

/-- One `updateResumeJobStatus` call. -/
inductive JobStatusUpdate where
  | processing
  | completed
  | failed (errorMessage : String)
deriving Repr, DecidableEq

/-- The render collaborator's response. -/
structure RenderResponse where
  pdfUrl : Option String := none
  html : Option String := none
  error : Option String := none
deriving Repr, DecidableEq

/-- Outcomes of the collaborator calls `processJob` performs, in program
order. `getJob` is `getResumeJobById` (`ok none` is a null row). -/
structure ProcessEnv where
  updateProcessing : Except String Unit
  getJob : Except String (Option Unit)
  fetchPostsData : Except String Unit
  fetchManagementData : Except String Unit
  payloadValid : Bool
  renderResume : Except String RenderResponse
  store : Except String Unit
deriving Repr

/-- The try block of `processJob` after the initial `processing` status
write: fetch the job row, fetch source data (each behind `withRetry`),
assemble and schema-validate the payload, call the renderer, check its
response, download/store the artifact. Returns `ok` when the run reaches
the `completed` status write. -/
def processJobTry (env : ProcessEnv) (job : ResumeGenerationJob) :
    Except String Unit :=
  match env.getJob with
  | .error e => .error e
  | .ok none => .error ("Job not found: " ++ job.jobId)
  | .ok (some _) =>
    match env.fetchPostsData with
    | .error e => .error e
    | .ok _ =>
      match env.fetchManagementData with
      | .error e => .error e
      | .ok _ =>
        if !env.payloadValid then .error "Composed payload validation failed"
        else
          match env.renderResume with
          | .error e => .error e
          | .ok r =>
            if jsTruthy r.error then .error ("Renderer error: " ++ r.error.getD "")
            else if !jsTruthy r.pdfUrl && !jsTruthy r.html then
              .error "Renderer did not return any output"
            else
              match env.store with
              | .error e => .error e
              | .ok _ => .ok ()

/-- `processJob`: the initial `processing` status write, the try block,
and the catch that records `failed` with the error message (plus a
`failedAt` timestamp) and re-throws. Returns the ordered status writes
and the settled outcome. -/
def processJob (env : ProcessEnv) (job : ResumeGenerationJob) :
    List JobStatusUpdate × Except String Unit :=
  match env.updateProcessing with
  | .error e => ([.failed e], .error e)
  | .ok _ =>
    match processJobTry env job with
    | .ok _ => ([.processing, .completed], .ok ())
    | .error e => ([.processing, .failed e], .error e)

/-! # Theorems -/

/-- The consume callback hands `ack`/`nack` the delivery object exactly
as received: no header (or any other) mutation. -/
theorem consumeDelivery_message (parseJob : String → Except String ResumeGenerationJob)
    (handler : ResumeGenerationJob → Except String Unit) (m : Delivery) :
    (consumeDelivery parseJob handler m).message = m := by
  unfold consumeDelivery
  cases (parseJob m.body).bind handler with
  | ok _ => rfl
  | error _ =>
    by_cases h : retryCountOf m < 3 <;> simp [h]

/-- C1: on a delivery whose handler invocation throws, the consumer reads
the `x-retry-count` header (default 0) and nacks with requeue exactly when
it is below 3, otherwise nacks without requeue (dead-letter route); in
particular header value 2 requeues and header value 3 dead-letters. -/
theorem consumer_retry_gate (parseJob : String → Except String ResumeGenerationJob)
    (handler : ResumeGenerationJob → Except String Unit) (msg : Delivery)
    (job : ResumeGenerationJob) (e : String)
    (hparse : parseJob msg.body = .ok job)
    (hfail : handler job = .error e) :
    ((consumeDelivery parseJob handler msg).action =
      if retryCountOf msg < 3 then ConsumerAction.nackRequeue
      else ConsumerAction.nackDeadLetter)
    ∧ (retryCountOf msg = 2 →
        (consumeDelivery parseJob handler msg).action = ConsumerAction.nackRequeue)
    ∧ (retryCountOf msg = 3 →
        (consumeDelivery parseJob handler msg).action = ConsumerAction.nackDeadLetter) := by
  have hbind : (parseJob msg.body).bind handler = .error e := by
    rw [hparse]; exact hfail
  refine ⟨?_, ?_, ?_⟩
  · unfold consumeDelivery
    rw [hbind]
    by_cases h : retryCountOf msg < 3 <;> simp [h]
  · intro h2
    unfold consumeDelivery
    rw [hbind]
    simp [h2]
  · intro h3
    unfold consumeDelivery
    rw [hbind]
    simp [h3]

/-- Closed witness for `consumer_retry_gate` at a concrete delivery with
`x-retry-count = 2`. -/
theorem consumer_retry_gate_witness :
    ((consumeDelivery (fun _ => .ok ⟨"j1", "u1", "desc", none, none⟩)
        (fun _ => .error "boom")
        ⟨[("x-retry-count", 2)], "body"⟩).action =
      if retryCountOf ⟨[("x-retry-count", 2)], "body"⟩ < 3 then ConsumerAction.nackRequeue
      else ConsumerAction.nackDeadLetter)
    ∧ (retryCountOf ⟨[("x-retry-count", 2)], "body"⟩ = 2 →
        (consumeDelivery (fun _ => .ok ⟨"j1", "u1", "desc", none, none⟩)
          (fun _ => .error "boom")
          ⟨[("x-retry-count", 2)], "body"⟩).action = ConsumerAction.nackRequeue)
    ∧ (retryCountOf ⟨[("x-retry-count", 2)], "body"⟩ = 3 →
        (consumeDelivery (fun _ => .ok ⟨"j1", "u1", "desc", none, none⟩)
          (fun _ => .error "boom")
          ⟨[("x-retry-count", 2)], "body"⟩).action = ConsumerAction.nackDeadLetter) :=
  consumer_retry_gate (fun _ => .ok ⟨"j1", "u1", "desc", none, none⟩)
    (fun _ => .error "boom") ⟨[("x-retry-count", 2)], "body"⟩
    ⟨"j1", "u1", "desc", none, none⟩ "boom" rfl rfl

/-- C2: the consumer never writes or increments `x-retry-count` — every
consume step returns the delivery unchanged — so when the header value is
below 3 and the handler keeps failing, every redelivery is nacked with
requeue and the message is never routed to the dead-letter exchange by
this consumer. -/
theorem consumer_never_dead_letters_below_three
    (parseJob : String → Except String ResumeGenerationJob)
    (handler : ResumeGenerationJob → Except String Unit) (msg : Delivery) (e : String)
    (hthrow : (parseJob msg.body).bind handler = .error e)
    (hlow : retryCountOf msg < 3) :
    (∀ m : Delivery, (consumeDelivery parseJob handler m).message = m)
    ∧ (∀ n, (redeliver parseJob handler msg n).message = msg)
    ∧ (∀ n, (redeliver parseJob handler msg n).action = ConsumerAction.nackRequeue)
    ∧ (∀ n, (redeliver parseJob handler msg n).action ≠ ConsumerAction.nackDeadLetter) := by
  have hmsg : ∀ n, (redeliver parseJob handler msg n).message = msg := by
    intro n
    induction n with
    | zero => exact consumeDelivery_message parseJob handler msg
    | succ n ih =>
      show (consumeDelivery parseJob handler
        (redeliver parseJob handler msg n).message).message = msg
      rw [ih]
      exact consumeDelivery_message parseJob handler msg
  have hstep : (consumeDelivery parseJob handler msg).action =
      ConsumerAction.nackRequeue := by
    unfold consumeDelivery
    rw [hthrow]
    simp [hlow]
  have hact : ∀ n, (redeliver parseJob handler msg n).action =
      ConsumerAction.nackRequeue := by
    intro n
    cases n with
    | zero => exact hstep
    | succ n =>
      show (consumeDelivery parseJob handler
        (redeliver parseJob handler msg n).message).action = ConsumerAction.nackRequeue
      rw [hmsg n]
      exact hstep
  exact ⟨consumeDelivery_message parseJob handler, hmsg, hact,
    fun n => by rw [hact n]; exact fun h => ConsumerAction.noConfusion h⟩

/-- Closed witness for `consumer_never_dead_letters_below_three` at a
concrete always-failing handler and header value 2. -/
theorem consumer_never_dead_letters_witness :
    (∀ m : Delivery, (consumeDelivery (fun _ => .ok ⟨"j1", "u1", "d", none, none⟩)
        (fun _ => .error "boom") m).message = m)
    ∧ (∀ n, (redeliver (fun _ => .ok ⟨"j1", "u1", "d", none, none⟩)
        (fun _ => .error "boom") ⟨[("x-retry-count", 2)], "body"⟩ n).message =
          ⟨[("x-retry-count", 2)], "body"⟩)
    ∧ (∀ n, (redeliver (fun _ => .ok ⟨"j1", "u1", "d", none, none⟩)
        (fun _ => .error "boom") ⟨[("x-retry-count", 2)], "body"⟩ n).action =
          ConsumerAction.nackRequeue)
    ∧ (∀ n, (redeliver (fun _ => .ok ⟨"j1", "u1", "d", none, none⟩)
        (fun _ => .error "boom") ⟨[("x-retry-count", 2)], "body"⟩ n).action ≠
          ConsumerAction.nackDeadLetter) :=
  consumer_never_dead_letters_below_three
    (fun _ => .ok ⟨"j1", "u1", "d", none, none⟩) (fun _ => .error "boom")
    ⟨[("x-retry-count", 2)], "body"⟩ "boom" rfl (by decide)

/-- C4: an operation whose first invocation throws an error containing
`404`, `401`, `403` or `Invalid` makes `withRetry` fail immediately with
that error after exactly one invocation, whatever `maxAttempts` is. -/
theorem withRetry_nonretryable_bails {α : Type} (f : Nat → Except String α)
    (maxAttempts : Nat) (m : String)
    (h0 : f 0 = .error m)
    (hcontains : strIncludes m "404" = true ∨ strIncludes m "401" = true ∨
      strIncludes m "403" = true ∨ strIncludes m "Invalid" = true) :
    (withRetry f maxAttempts).result = .error m ∧
    (withRetry f maxAttempts).invocations = 1 := by
  have hnr : nonRetryable m = true := by
    unfold nonRetryable
    rcases hcontains with h | h | h | h <;> simp [h]
  unfold withRetry runRetryAux
  rw [h0]
  simp [hnr]

/-- Closed witness for `withRetry_nonretryable_bails` on a concrete 404
error with `maxAttempts = 5`. -/
theorem withRetry_nonretryable_bails_witness :
    (withRetry (fun _ => (.error "Request failed with status code 404" :
        Except String Nat)) 5).result = .error "Request failed with status code 404" ∧
    (withRetry (fun _ => (.error "Request failed with status code 404" :
        Except String Nat)) 5).invocations = 1 :=
  withRetry_nonretryable_bails
    (fun _ => .error "Request failed with status code 404") 5
    "Request failed with status code 404" rfl (Or.inl (by decide))

/-- Invocation bound of the retry loop: starting at attempt `i` with `r`
retries left, the operation runs at most `r + 1` more times. -/
theorem runRetryAux_invocations_le {α : Type} (f : Nat → Except String α) :
    ∀ r i errs w, (runRetryAux f i r errs w).invocations ≤ i + r + 1 := by
  intro r
  induction r with
  | zero =>
    intro i errs w
    unfold runRetryAux
    cases h : f i with
    | ok a => simp
    | error m => by_cases hm : nonRetryable m <;> simp [hm]
  | succ r ih =>
    intro i errs w
    unfold runRetryAux
    cases h : f i with
    | ok a => simp
    | error m =>
      by_cases hm : nonRetryable m
      · simp [hm]
      · simp only [hm, if_false, Bool.false_eq_true]
        have := ih (i + 1) (errs ++ [m]) (w + 1)
        simpa using this.trans (by omega)

/-- Appending one more occurrence bumps the occurrence count. -/
theorem countOcc_append_self (l : List String) (m : String) :
    countOcc (l ++ [m]) m = countOcc l m + 1 := by
  simp [countOcc, List.filter_append]

/-- `mainError`'s scan over a run of identical messages settles on that
message. -/
theorem mainErrorGo_replicate (m : String) :
    ∀ k seen best bc, bc ≤ countOcc (seen ++ [m]) m →
      mainErrorGo (List.replicate (k + 1) m) seen best bc = some m := by
  intro k
  induction k with
  | zero =>
    intro seen best bc hbc
    simp only [List.replicate_succ, List.replicate_zero, mainErrorGo]
    rw [if_pos hbc]
  | succ k ih =>
    intro seen best bc hbc
    rw [List.replicate_succ]
    show mainErrorGo (m :: List.replicate (k + 1) m) seen best bc = some m
    unfold mainErrorGo
    rw [if_pos hbc]
    exact ih (seen ++ [m]) (some m) _
      (by simp only [countOcc_append_self]; omega)

/-- An always-failing retryable operation exhausts the retries: the loop
performs every allowed attempt and rejects with the common message. -/
theorem runRetryAux_all_fail {α : Type} (f : Nat → Except String α) (m : String)
    (hall : ∀ j, f j = .error m) (hm : nonRetryable m = false) :
    ∀ r i errs w, (∀ e ∈ errs, e = m) →
      (runRetryAux f i r errs w).result = .error m ∧
      (runRetryAux f i r errs w).invocations = i + r + 1 := by
  intro r
  induction r with
  | zero =>
    intro i errs w herrs
    unfold runRetryAux
    rw [hall i]
    simp only [hm, Bool.false_eq_true, if_false]
    have hrep : errs ++ [m] = List.replicate (errs.length + 1) m := by
      have : errs = List.replicate errs.length m := List.eq_replicate_length.mpr herrs
      conv_lhs => rw [this]
      rw [← List.replicate_succ']
    have hmain : mainError (errs ++ [m]) = some m := by
      rw [hrep]
      exact mainErrorGo_replicate m errs.length [] none 0 (by omega)
    simp [hmain]
  | succ r ih =>
    intro i errs w herrs
    unfold runRetryAux
    rw [hall i]
    simp only [hm, Bool.false_eq_true, if_false]
    have herrs' : ∀ e ∈ errs ++ [m], e = m := by
      intro e he
      rcases List.mem_append.mp he with h | h
      · exact herrs e h
      · simpa using h
    have := ih (i + 1) (errs ++ [m]) (w + 1) herrs'
    exact ⟨this.1, by omega⟩

/-- An operation failing retryably `k` times and then succeeding settles
on the success value at invocation `k + 1`, with one retry-warning per
failure. -/
theorem runRetryAux_ok_after {α : Type} (f : Nat → Except String α) (a : α) :
    ∀ k r i errs w, k ≤ r →
      (∀ j, j < k → ∃ m, f (i + j) = .error m ∧ nonRetryable m = false) →
      f (i + k) = .ok a →
      (runRetryAux f i r errs w).result = .ok a ∧
      (runRetryAux f i r errs w).invocations = i + k + 1 ∧
      (runRetryAux f i r errs w).warnings = w + k := by
  intro k
  induction k with
  | zero =>
    intro r i errs w _ _ hok
    unfold runRetryAux
    rw [show i + 0 = i from rfl] at hok
    rw [hok]
    simp
  | succ k ih =>
    intro r i errs w hkr hfails hok
    obtain ⟨m0, hm0, hm0r⟩ := hfails 0 (Nat.succ_pos k)
    rw [show i + 0 = i from rfl] at hm0
    cases r with
    | zero => omega
    | succ r =>
      unfold runRetryAux
      rw [hm0]
      simp only [hm0r, Bool.false_eq_true, if_false]
      have hfails' : ∀ j, j < k → ∃ m, f (i + 1 + j) = .error m ∧
          nonRetryable m = false := by
        intro j hj
        have := hfails (j + 1) (by omega)
        rwa [show i + (j + 1) = i + 1 + j by omega] at this
      have hok' : f (i + 1 + k) = .ok a := by
        rwa [show i + 1 + k = i + (k + 1) by omega]
      have := ih r (i + 1) (errs ++ [m0]) (w + 1) (by omega) hfails' hok'
      exact ⟨this.1, by omega, by omega⟩

/-- C3 is false as stated: with `maxAttempts = 1` an always-failing
retryable operation is invoked twice (more than `maxAttempts` times in
total), and with `maxAttempts = 2` and retryable failures `A`, `A`, `B`
the call rejects with `A`, not with the error of the final invocation. -/
theorem withRetry_claim_counterexample :
    (withRetry (fun _ => (.error "boom" : Except String Nat)) 1).invocations = 2
    ∧ ¬((withRetry (fun _ => (.error "boom" : Except String Nat)) 1).invocations ≤ 1)
    ∧ (withRetry (fun i => if i < 2 then (.error "A" : Except String Nat)
        else .error "B") 2).result = .error "A"
    ∧ (withRetry (fun i => if i < 2 then (.error "A" : Except String Nat)
        else .error "B") 2).result ≠ .error "B" := by
  refine ⟨by decide, by decide, rfl, ?_⟩
  rw [show (withRetry (fun i => if i < 2 then (.error "A" : Except String Nat)
    else .error "B") 2).result = .error "A" from rfl]
  simp

/-- C3 (amended): for a `withRetry` call whose configured `maxAttempts`
is handed to `async-retry` as its `retries` option, the operation is
invoked at most `maxAttempts + 1` times in total; when every invocation
fails retryably with one common error, the call performs all
`maxAttempts + 1` invocations and rejects with that error (the most
frequent collected message — the final error whenever all failure
messages coincide); and an operation failing retryably `maxAttempts - 1`
times then succeeding yields the success value after exactly
`maxAttempts - 1` retry-warning events. -/
theorem withRetry_attempt_accounting {α : Type} :
    (∀ (f : Nat → Except String α) (maxAttempts : Nat),
      (withRetry f maxAttempts).invocations ≤ maxAttempts + 1)
    ∧ (∀ (f : Nat → Except String α) (maxAttempts : Nat) (m : String),
        (∀ j, f j = .error m) → nonRetryable m = false →
        (withRetry f maxAttempts).result = .error m ∧
        (withRetry f maxAttempts).invocations = maxAttempts + 1)
    ∧ (∀ (f : Nat → Except String α) (maxAttempts : Nat) (a : α),
        1 ≤ maxAttempts →
        (∀ j, j < maxAttempts - 1 → ∃ m, f j = .error m ∧ nonRetryable m = false) →
        f (maxAttempts - 1) = .ok a →
        (withRetry f maxAttempts).result = .ok a ∧
        (withRetry f maxAttempts).invocations = maxAttempts ∧
        (withRetry f maxAttempts).warnings = maxAttempts - 1) := by
  refine ⟨?_, ?_, ?_⟩
  · intro f maxAttempts
    simpa using runRetryAux_invocations_le f maxAttempts 0 [] 0
  · intro f maxAttempts m hall hm
    obtain ⟨h1, h2⟩ := runRetryAux_all_fail f m hall hm maxAttempts 0 [] 0 (by simp)
    unfold withRetry
    exact ⟨h1, by omega⟩
  · intro f maxAttempts a h1 hfails hok
    obtain ⟨g1, g2, g3⟩ := runRetryAux_ok_after f a (maxAttempts - 1) maxAttempts 0 [] 0
      (by omega) (by simpa using hfails) (by simpa using hok)
    unfold withRetry
    exact ⟨g1, by omega, by omega⟩

/-- Closed witness for `withRetry_attempt_accounting`: `maxAttempts = 3`,
two retryable failures then success. -/
theorem withRetry_attempt_accounting_witness :
    (withRetry (fun j => if j < 2 then (.error "boom" : Except String Nat)
      else .ok 7) 3).result = .ok 7 ∧
    (withRetry (fun j => if j < 2 then (.error "boom" : Except String Nat)
      else .ok 7) 3).invocations = 3 ∧
    (withRetry (fun j => if j < 2 then (.error "boom" : Except String Nat)
      else .ok 7) 3).warnings = 2 :=
  (withRetry_attempt_accounting (α := Nat)).2.2
    (fun j => if j < 2 then .error "boom" else .ok 7) 3 7 (by decide)
    (fun j hj => ⟨"boom", by
      have h2 : j < 2 := by omega
      simp [h2], by decide⟩)
    rfl

/-- Propositional reading of `aiValidatedSuccess`. -/
theorem aiValidatedSuccess_iff (item : Item) :
    aiValidatedSuccess item = true ↔
      ∃ m, item._ai = some m ∧ m.validated = true ∧ m.status = "success" := by
  unfold aiValidatedSuccess
  cases item._ai with
  | none => simp
  | some m => simp [Bool.and_eq_true]

/-- Propositional reading of `jsTruthy`. -/
theorem jsTruthy_iff (o : Option String) :
    jsTruthy o = true ↔ ∃ s, o = some s ∧ s ≠ "" := by
  cases o <;> simp [jsTruthy]

/-- C5 is false as stated: an item whose metadata marks a validated
success but whose `description_optimized` field is the empty string
(falsy) falls back to the raw value, so the "if" direction of the
claimed iff fails at this input. -/
theorem selectOptimalContent_claim_counterexample :
    selectOptimalContent
      ⟨[("description", "hello"), ("description_optimized", "")],
        some ⟨"success", true, 5, 0, .prose, "", 10, "gpt", .en, none⟩⟩
      "description" = "hello"
    ∧ selectOptimalContent
      ⟨[("description", "hello"), ("description_optimized", "")],
        some ⟨"success", true, 5, 0, .prose, "", 10, "gpt", .en, none⟩⟩
      "description" ≠ "" := by
  refine ⟨rfl, by decide⟩

/-- C5 (amended): `selectOptimalContent` returns the (truncated)
`<field>_optimized` value iff the item's metadata has status `success`
and `validated = true` **and** the optimized field is present and
non-empty; in every other case it returns the truncated raw field value
(empty when the raw field is absent). -/
theorem selectOptimalContent_selection (item : Item) (fieldName : String) :
    (((∃ m, item._ai = some m ∧ m.validated = true ∧ m.status = "success") ∧
        (∃ s, getField item (fieldName ++ "_optimized") = some s ∧ s ≠ "")) →
      selectOptimalContent item fieldName =
        truncate (getField item (fieldName ++ "_optimized"))
          (if fieldName = "description" then 800 else 500))
    ∧ (¬ ((∃ m, item._ai = some m ∧ m.validated = true ∧ m.status = "success") ∧
        (∃ s, getField item (fieldName ++ "_optimized") = some s ∧ s ≠ "")) →
      selectOptimalContent item fieldName =
        truncate (some ((getField item fieldName).getD ""))
          (if fieldName = "description" then 800 else 500)) := by
  constructor
  · intro h
    have hb : (aiValidatedSuccess item &&
        jsTruthy (getField item (fieldName ++ "_optimized"))) = true := by
      rw [Bool.and_eq_true, aiValidatedSuccess_iff, jsTruthy_iff]
      exact h
    simp [selectOptimalContent, hb]
  · intro h
    cases hcond : (aiValidatedSuccess item &&
        jsTruthy (getField item (fieldName ++ "_optimized"))) with
    | true =>
      obtain ⟨h1, h2⟩ := (Bool.and_eq_true _ _).mp hcond
      exact absurd ⟨(aiValidatedSuccess_iff item).mp h1, (jsTruthy_iff _).mp h2⟩ h
    | false => simp [selectOptimalContent, hcond]

/-- Closed witness for `selectOptimalContent_selection`: both branches at
concrete items. -/
theorem selectOptimalContent_selection_witness :
    (selectOptimalContent
      ⟨[("description", "raw text"), ("description_optimized", "Better text")],
        some ⟨"success", true, 8, 11, .prose, "", 10, "gpt", .en, none⟩⟩
      "description" =
      truncate (getField
        ⟨[("description", "raw text"), ("description_optimized", "Better text")],
          some ⟨"success", true, 8, 11, .prose, "", 10, "gpt", .en, none⟩⟩
        ("description" ++ "_optimized"))
        (if "description" = "description" then 800 else 500))
    ∧ (selectOptimalContent
      ⟨[("description", "raw text"), ("description_optimized", "Better text")],
        some ⟨"failed", false, 8, 11, .prose, "", 0, "", .en, some "bad"⟩⟩
      "description" =
      truncate (some ((getField
        ⟨[("description", "raw text"), ("description_optimized", "Better text")],
          some ⟨"failed", false, 8, 11, .prose, "", 0, "", .en, some "bad"⟩⟩
        "description").getD ""))
        (if "description" = "description" then 800 else 500)) :=
  ⟨(selectOptimalContent_selection
      ⟨[("description", "raw text"), ("description_optimized", "Better text")],
        some ⟨"success", true, 8, 11, .prose, "", 10, "gpt", .en, none⟩⟩
      "description").1
    ⟨⟨⟨"success", true, 8, 11, .prose, "", 10, "gpt", .en, none⟩, rfl, rfl, rfl⟩,
      ⟨"Better text", rfl, by decide⟩⟩,
   (selectOptimalContent_selection
      ⟨[("description", "raw text"), ("description_optimized", "Better text")],
        some ⟨"failed", false, 8, 11, .prose, "", 0, "", .en, some "bad"⟩⟩
      "description").2
    (by
      rintro ⟨⟨m, hm, hv, hs⟩, -⟩
      cases hm
      exact absurd hv (by decide))⟩

/-- `truncate` never exceeds the cap. -/
theorem truncate_length_le (s : Option String) (cap : Nat) :
    (truncate s cap).length ≤ cap := by
  cases s with
  | none => simp [truncate]
  | some s =>
    unfold truncate
    by_cases h : s.length ≤ cap
    · simp [h]
    · simp only [h, if_false]
      show (s.data.take cap).length ≤ cap
      simp [List.length_take]

/-- `truncate` of a present string is a left-anchored prefix of it. -/
theorem truncate_prefix (s : String) (cap : Nat) :
    (truncate (some s) cap).data <+: s.data := by
  unfold truncate
  by_cases h : s.length ≤ cap
  · simp [h]
  · simp only [h, if_false]
    exact List.take_prefix cap s.data

/-- C6: the string `selectOptimalContent` returns never exceeds the
field's cap (800 for `description`, 500 otherwise) and is a left-anchored
prefix of the item's `<field>_optimized` value or of its raw field value
(the empty string when the raw field is absent) — never any other
source. -/
theorem selectOptimalContent_truncation_invariant (item : Item) (fieldName : String) :
    (selectOptimalContent item fieldName).length ≤
      (if fieldName = "description" then 800 else 500)
    ∧ ((∃ s, getField item (fieldName ++ "_optimized") = some s ∧
          (selectOptimalContent item fieldName).data <+: s.data)
       ∨ (selectOptimalContent item fieldName).data <+:
          ((getField item fieldName).getD "").data) := by
  cases hcond : (aiValidatedSuccess item &&
      jsTruthy (getField item (fieldName ++ "_optimized"))) with
  | true =>
    obtain ⟨-, h2⟩ := (Bool.and_eq_true _ _).mp hcond
    obtain ⟨s, hs, -⟩ := (jsTruthy_iff _).mp h2
    have heq : selectOptimalContent item fieldName =
        truncate (getField item (fieldName ++ "_optimized"))
          (if fieldName = "description" then 800 else 500) := by
      simp [selectOptimalContent, hcond]
    constructor
    · rw [heq]; exact truncate_length_le _ _
    · left
      exact ⟨s, hs, by rw [heq, hs]; exact truncate_prefix s _⟩
  | false =>
    have heq : selectOptimalContent item fieldName =
        truncate (some ((getField item fieldName).getD ""))
          (if fieldName = "description" then 800 else 500) := by
      simp [selectOptimalContent, hcond]
    constructor
    · rw [heq]; exact truncate_length_le _ _
    · right
      rw [heq]
      exact truncate_prefix _ _

/-- C10: no `_ai` enhancement metadata survives `assemblePayload`: every
emitted item in the five sections has `_ai` stripped (`undefined`), and
each item carries exactly the derived boolean `_aiEnhanced` computed from
its source item's metadata. -/
theorem assemblePayload_strips_enhancement_metadata (input : JobInput)
    (enrichedData : EnrichedData) (userProfile : Option UserProfile) :
    ((assemblePayload input enrichedData userProfile).experiences.all
        (fun o => o._ai.isNone) = true
      ∧ (assemblePayload input enrichedData userProfile).projects.all
        (fun o => o._ai.isNone) = true
      ∧ (assemblePayload input enrichedData userProfile).posts.all
        (fun o => o._ai.isNone) = true
      ∧ (assemblePayload input enrichedData userProfile).technicalWritings.all
        (fun o => o._ai.isNone) = true
      ∧ (assemblePayload input enrichedData userProfile).systemDesigns.all
        (fun o => o._ai.isNone) = true)
    ∧ ((assemblePayload input enrichedData userProfile).experiences.map
        (fun o => o._aiEnhanced) = enrichedData.experiences.map aiValidatedSuccess
      ∧ (assemblePayload input enrichedData userProfile).projects.map
        (fun o => o._aiEnhanced) = enrichedData.projects.map aiValidatedSuccess
      ∧ (assemblePayload input enrichedData userProfile).posts.map
        (fun o => o._aiEnhanced) = enrichedData.posts.map aiValidatedSuccess
      ∧ (assemblePayload input enrichedData userProfile).technicalWritings.map
        (fun o => o._aiEnhanced) = enrichedData.technicalWritings.map aiValidatedSuccess
      ∧ (assemblePayload input enrichedData userProfile).systemDesigns.map
        (fun o => o._aiEnhanced) = enrichedData.systemDesigns.map aiValidatedSuccess) := by
  refine ⟨⟨?_, ?_, ?_, ?_, ?_⟩, ⟨?_, ?_, ?_, ?_, ?_⟩⟩ <;>
    simp [assemblePayload, toPayloadItem, List.all_map, List.map_map, Function.comp]

/-- Every `TOO_SHORT` entry is a blocking error. -/
theorem tooShortErrs_severity (len : Nat) (m : Option Nat) :
    ∀ e ∈ tooShortErrs len m, e.severity = .error := by
  intro e he
  cases m with
  | none => simp [tooShortErrs] at he
  | some n =>
    simp only [tooShortErrs] at he
    by_cases h : n ≠ 0 ∧ len < n
    · rw [if_pos h] at he
      rw [List.mem_singleton.mp he]
    · rw [if_neg h] at he
      simp at he

/-- Every `TOO_LONG` entry is a blocking error. -/
theorem tooLongErrs_severity (len : Nat) (m : Option Nat) :
    ∀ e ∈ tooLongErrs len m, e.severity = .error := by
  intro e he
  cases m with
  | none => simp [tooLongErrs] at he
  | some n =>
    simp only [tooLongErrs] at he
    by_cases h : n ≠ 0 ∧ len > n
    · rw [if_pos h] at he
      rw [List.mem_singleton.mp he]
    · rw [if_neg h] at he
      simp at he

/-- Every `FORBIDDEN_PHRASE` entry is a blocking error. -/
theorem forbiddenErrs_severity (trimmed : String) (l : List String) :
    ∀ e ∈ forbiddenErrs trimmed l, e.severity = .error := by
  intro e he
  unfold forbiddenErrs at he
  obtain ⟨p, -, hp⟩ := List.mem_map.mp he
  rw [← hp]

/-- Every `WRONG_FORMAT` entry of the *error* check is a blocking error. -/
theorem formatErrs_severity (trimmed : String) (rf : Option DetectedFormat) :
    ∀ e ∈ formatErrs trimmed rf, e.severity = .error := by
  intro e he
  unfold formatErrs at he
  match rf with
  | none => simp at he
  | some .prose => simp at he
  | some .mixed => simp at he
  | some .bullet =>
    by_cases h : detectFormat trimmed ≠ .bullet ∧ countBullets trimmed = 0
    · rw [if_pos h] at he
      rw [List.mem_singleton.mp he]
    · rw [if_neg h] at he
      simp at he

/-- Every `MISSING_BULLETS` entry is a blocking error. -/
theorem bulletErrs_severity (c : Nat) (range : Option (Nat × Nat)) :
    ∀ e ∈ bulletErrs c range, e.severity = .error := by
  intro e he
  match range with
  | none => simp [bulletErrs] at he
  | some (mn, mx) =>
    simp only [bulletErrs] at he
    by_cases h : c < mn ∨ c > mx
    · rw [if_pos h] at he
      rw [List.mem_singleton.mp he]
    · rw [if_neg h] at he
      simp at he

/-- Everything `validate` ever puts on the error list has severity
`error`. -/
theorem validateErrors_severity (content : String) (rules : ValidationRules) :
    ∀ e ∈ validateErrors content rules, e.severity = .error := by
  intro e he
  unfold validateErrors at he
  simp only [List.mem_append] at he
  rcases he with ((((h | h) | h) | h) | h)
  · exact tooShortErrs_severity _ _ e h
  · exact tooLongErrs_severity _ _ e h
  · exact forbiddenErrs_severity _ _ e h
  · exact formatErrs_severity _ _ e h
  · exact bulletErrs_severity _ _ e h

/-- C9: `validate` reports `isValid = true` iff its error list is empty
(all its entries carry severity `error`), the error list never depends on
the required-keyword rule (missing keywords warn only), and a required
`prose` format contributes no error either (bullet-formatted content
under a `prose` requirement warns only) — warnings never block. -/
theorem validate_isValid_iff (content : String) (rules : ValidationRules)
    (kw : Option (List String)) :
    ((validate content rules).isValid = true ↔ (validate content rules).errors = [])
    ∧ (∀ e ∈ (validate content rules).errors, e.severity = Severity.error)
    ∧ ((validate content { rules with requiredKeywords := kw }).errors =
          (validate content rules).errors
        ∧ (validate content { rules with requiredKeywords := kw }).isValid =
          (validate content rules).isValid)
    ∧ (rules.requiredFormat = some .prose →
        (validate content rules).errors =
          (validate content { rules with requiredFormat := none }).errors
        ∧ (validate content rules).isValid =
          (validate content { rules with requiredFormat := none }).isValid) := by
  by_cases hc : content = ""
  · refine ⟨by simp [validate, hc], ?_, by simp [validate, hc],
      by simp [validate, hc]⟩
    intro e he
    simp only [validate, hc, if_pos] at he
    rw [List.mem_singleton.mp he]
  · refine ⟨?_, ?_, ?_, ?_⟩
    · simp [validate, hc, List.length_eq_zero]
    · intro e he
      simp only [validate, hc, if_neg, if_false] at he
      exact validateErrors_severity content rules e (by simpa using he)
    · constructor <;> simp [validate, hc, validateErrors]
    · intro hrf
      constructor <;> simp [validate, hc, validateErrors, formatErrs, hrf]

/-- Closed witness for `validate_isValid_iff`: the severity conjunct at
the empty-content error entry, and the prose-format conjunct at a
concrete rule set. -/
theorem validate_isValid_iff_witness :
    (⟨.QUALITY_ISSUE, "Response is empty or not a string", .error, none⟩ :
      ValidationError).severity = Severity.error
    ∧ (validate "hello" { requiredFormat := some .prose }).errors =
        (validate "hello"
          { ({ requiredFormat := some .prose } : ValidationRules) with
              requiredFormat := none }).errors :=
  ⟨(validate_isValid_iff "" {} none).2.1
      ⟨.QUALITY_ISSUE, "Response is empty or not a string", .error, none⟩
      (by decide),
   ((validate_isValid_iff "hello" { requiredFormat := some .prose } none).2.2.2 rfl).1⟩

/-- C7: when the AI call (or anything else in `enhanceItem`'s try block)
throws, `enhanceItem` still resolves — with the item unchanged except for
an attached `_ai` record with status `failed`, `validated = false`,
`tokensUsed = 0` and the stringified error; and `enhanceItems` is a
pointwise map, so one item's failure never affects the rest of the
batch. -/
theorem enhanceItem_failure_isolation (item : Item) (content : String)
    (sectionName : String) (config : SectionEnhancerConfig)
    (enhancerConfig : AIEnhancerConfig) (err : String)
    (hen : config.enable = true) :
    enhanceItem item content sectionName config enhancerConfig (.error err) =
      { item with _ai := some ⟨"failed", false, content.length, 0, config.format,
          String.intercalate "," config.focusOn, 0, "",
          enhancerConfig.language, some err⟩ }
    ∧ (∀ (items : List Item) (contentExtractor : Item → String)
        (aiCalls : Item → Except String AIResponse),
        enhanceItems items contentExtractor sectionName config enhancerConfig aiCalls =
          items.map (fun it => enhanceItem it (contentExtractor it) sectionName config
            enhancerConfig (aiCalls it))) := by
  constructor
  · simp [enhanceItem, enhanceItemTry, hen, failedAIMeta]
  · intro items contentExtractor aiCalls
    cases items with
    | nil => simp [enhanceItems, hen]
    | cons a l => simp [enhanceItems, hen]

/-- Closed witness for `enhanceItem_failure_isolation` at a concrete item
and a rejected AI call. -/
theorem enhanceItem_failure_isolation_witness :
    enhanceItem ⟨[("description", "raw")], none⟩ "raw" "experience"
      ⟨true, .bullet, 100, 2000, ["impact"], some 3, true⟩
      ⟨"jd", none, ["Go"], .en, "raw", "raw"⟩ (.error "Network error") =
      { (⟨[("description", "raw")], none⟩ : Item) with _ai := some ⟨"failed",
          false, ("raw" : String).length, 0, DetectedFormat.bullet,
          String.intercalate "," ["impact"], 0, "",
          Language.en, some "Network error"⟩ }
    ∧ (∀ (items : List Item) (contentExtractor : Item → String)
        (aiCalls : Item → Except String AIResponse),
        enhanceItems items contentExtractor "experience"
          ⟨true, .bullet, 100, 2000, ["impact"], some 3, true⟩
          ⟨"jd", none, ["Go"], .en, "raw", "raw"⟩ aiCalls =
          items.map (fun it => enhanceItem it (contentExtractor it) "experience"
            ⟨true, .bullet, 100, 2000, ["impact"], some 3, true⟩
            ⟨"jd", none, ["Go"], .en, "raw", "raw"⟩ (aiCalls it))) :=
  enhanceItem_failure_isolation ⟨[("description", "raw")], none⟩ "raw" "experience"
    ⟨true, .bullet, 100, 2000, ["impact"], some 3, true⟩
    ⟨"jd", none, ["Go"], .en, "raw", "raw"⟩ "Network error" rfl

/-- C8: whenever `processJob` fails, the last persisted status update is
`failed` carrying the error message (with the `failedAt` timestamp) and
the same error is re-thrown; in particular a render response
`{error: "internal"}` yields the recorded and re-thrown message
`Renderer error: internal`. -/
theorem processJob_failure_persistence (env : ProcessEnv) (job : ResumeGenerationJob) :
    (∀ e, (processJob env job).2 = .error e →
      (processJob env job).1.getLast? = some (.failed e))
    ∧ (env.updateProcessing = .ok () →
        env.getJob = .ok (some ()) →
        env.fetchPostsData = .ok () →
        env.fetchManagementData = .ok () →
        env.payloadValid = true →
        env.renderResume = .ok ⟨none, none, some "internal"⟩ →
        (processJob env job).1 =
          [.processing, .failed "Renderer error: internal"]
        ∧ (processJob env job).2 = .error "Renderer error: internal") := by
  constructor
  · intro e he
    unfold processJob at he ⊢
    cases hu : env.updateProcessing with
    | error e0 =>
      rw [hu] at he
      have h0 : e0 = e := by simpa using he
      subst h0
      rfl
    | ok u =>
      rw [hu] at he
      cases ht : processJobTry env job with
      | ok _ => rw [ht] at he; simp at he
      | error e1 =>
        rw [ht] at he
        have h1 : e1 = e := by simpa using he
        subst h1
        rfl
  · intro h1 h2 h3 h4 h5 h6
    have htry : processJobTry env job = .error "Renderer error: internal" := by
      unfold processJobTry
      rw [h2, h3, h4, h6]
      simp [h5, jsTruthy]
    constructor
    · unfold processJob
      rw [h1, htry]
    · unfold processJob
      rw [h1, htry]

/-- Closed witness for `processJob_failure_persistence`: a concrete
environment whose renderer reports `{error: "internal"}`. -/
theorem processJob_failure_persistence_witness :
    ((processJob ⟨.ok (), .ok (some ()), .ok (), .ok (), true,
        .ok ⟨none, none, some "internal"⟩, .ok ()⟩
      ⟨"j1", "u1", "desc", none, none⟩).1 =
        [.processing, .failed "Renderer error: internal"]
      ∧ (processJob ⟨.ok (), .ok (some ()), .ok (), .ok (), true,
          .ok ⟨none, none, some "internal"⟩, .ok ()⟩
        ⟨"j1", "u1", "desc", none, none⟩).2 = .error "Renderer error: internal")
    ∧ (processJob ⟨.ok (), .ok (some ()), .ok (), .ok (), true,
        .ok ⟨none, none, some "internal"⟩, .ok ()⟩
      ⟨"j1", "u1", "desc", none, none⟩).1.getLast? =
        some (.failed "Renderer error: internal") := by
  have h := processJob_failure_persistence
    ⟨.ok (), .ok (some ()), .ok (), .ok (), true,
      .ok ⟨none, none, some "internal"⟩, .ok ()⟩
    ⟨"j1", "u1", "desc", none, none⟩
  have hs := h.2 rfl rfl rfl rfl rfl rfl
  exact ⟨hs, h.1 "Renderer error: internal" hs.2⟩

end ResumeWorker
